import Mathlib

/-!
Verification of the PDF-Tiler core (src/app.py).

The file embeds the two core components of the repository:

* the Tiler, `tile_image` (src/app.py lines 182-222), together with its
  helpers (window geometry, cropping, white padding), and
* the Blank Classifier, `is_blank_tile` (lines 39-89) with its
  border-frame sub-tests `is_border_frame` (lines 91-142) and
  `detect_rectangular_border` (lines 144-180).

Modelling conventions:

* A PIL image is an `Img`: a width, a height, and a pixel function
  `pix x y` (x = column, y = row), meaningful on
  `[0, width) x [0, height)`.  Channel samples are 8-bit naturals.
* Python integers are `Int`; Python's floor division `//` is `Int.fdiv`.
  `tile_image` returns `none` exactly when Python would raise
  `ZeroDivisionError` (step = 0); otherwise `some` of the emitted list.
* PIL `crop` fills pixels outside the source image with 0 (black);
  `getpix` realises that convention.
* Statistics that Python computes in binary64 floating point (means,
  standard deviations, fractional thresholds) are modelled in exact
  arithmetic (`Rat` for rational quantities, `Real.sqrt` for standard
  deviations).  The fractional literals 0.8, 0.002, 0.001 denote the
  exact rationals; the binary64 values differ from them by < 1e-16,
  which no realistically sized tile can discriminate.
-/

/-- An RGB pixel sample: three 8-bit channels. -/
abbrev RGB := Nat × Nat × Nat

/-- A raster image: PIL-style width/height plus a pixel map `pix x y`
(x = column index, y = row index). -/
structure Img where
  width : Nat
  height : Nat
  pix : Nat → Nat → RGB

/-- Pixel lookup at signed coordinates, with PIL's convention that
reads outside the image yield black (0, 0, 0); this is what
`Image.crop` fills regions beyond the source with. -/
def getpix (img : Img) (x y : Int) : RGB :=
  if 0 ≤ x ∧ x < (img.width : Int) ∧ 0 ≤ y ∧ y < (img.height : Int) then
    img.pix x.toNat y.toNat
  else (0, 0, 0)

/-- Embeds `image.crop((l, t, r, b))` from src/app.py line 212: the result has
size `(r - l, b - t)` and its pixel `(x, y)` is the source pixel
`(l + x, t + y)`. -/
def crop (img : Img) (l t r b : Int) : Img :=
  { width := (r - l).toNat
    height := (b - t).toNat
    pix := fun x y => getpix img (l + (x : Int)) (t + (y : Int)) }

/-- The white fill colour used for padding (src/app.py line 216). -/
def white : RGB := (255, 255, 255)

/-- Embeds `Image.new('RGB', (ts, ts), (255,255,255))` followed by
`padded.paste(tile, (0, 0))` (src/app.py lines 216-217): a `ts × ts`
canvas holding `tile` anchored at the top-left corner and white
elsewhere. -/
def padTile (tile : Img) (ts : Nat) : Img :=
  { width := ts
    height := ts
    pix := fun x y => if x < tile.width ∧ y < tile.height then tile.pix x y else white }

/-- The window geometry of the loop body of `tile_image`
(src/app.py lines 199-209): raw corner at `(col*step, row*step)`,
right/bottom edges clamped to the page, and the edge-correction shift
for non-first columns/rows.  Returns `(left, top, right, bottom)`. -/
def tile_window (W H tile_size overlap : Int) (row col : Nat) : Int × Int × Int × Int :=
  let step := tile_size - overlap
  let left := (col : Int) * step
  let top := (row : Int) * step
  let right := min (left + tile_size) W
  let bottom := min (top + tile_size) H
  let left' := if right - left < tile_size ∧ 0 < col then max 0 (right - tile_size) else left
  let top' := if bottom - top < tile_size ∧ 0 < row then max 0 (bottom - tile_size) else top
  (left', top', right, bottom)

/-- Embeds `tile = image.crop((left, top, right, bottom))` (src/app.py line
212) with the boundaries of `tile_window`. -/
def window_crop (img : Img) (tile_size overlap : Int) (row col : Nat) : Img :=
  let w := tile_window (img.width : Int) (img.height : Int) tile_size overlap row col
  crop img w.1 w.2.1 w.2.2.1 w.2.2.2

/-- One loop-body iteration of `tile_image` (src/app.py lines 199-220):
crop the window and, when the crop's size differs from
`(tile_size, tile_size)`, paste it on a white canvas. -/
def tile_cell (img : Img) (tile_size overlap : Int) (row col : Nat) : Img × Nat × Nat :=
  let tile := window_crop img tile_size overlap row col
  if (tile.width : Int) = tile_size ∧ (tile.height : Int) = tile_size then (tile, row, col)
  else (padTile tile tile_size.toNat, row, col)

/-- The grid-dimension computation of src/app.py lines 194-195:
`max(1, (dim - overlap + step - 1) // step)` with Python's floor
division, applied to the width for `cols` and to the height for
`rows`. -/
def grid_count (dim tile_size overlap : Int) : Int :=
  max 1 ((dim - overlap + (tile_size - overlap) - 1).fdiv (tile_size - overlap))

/-- Embeds `tile_image(image, tile_size, overlap)` (src/app.py lines 182-222).
Returns `none` when `step = tile_size - overlap = 0`, where Python
raises `ZeroDivisionError` at line 194; otherwise the emitted list of
`(tile, row, col)` triples, rows outer and columns inner
(`cols`/`rows` are `grid_count` of the width/height). -/
def tile_image (img : Img) (tile_size overlap : Int) : Option (List (Img × Nat × Nat)) :=
  if tile_size - overlap = 0 then none
  else
    some ((List.range (grid_count (img.height : Int) tile_size overlap).toNat).flatMap fun row =>
      (List.range (grid_count (img.width : Int) tile_size overlap).toNat).map fun col =>
        tile_cell img tile_size overlap row col)

/-- Observational equality of images: same dimensions and same pixels
at every in-bounds coordinate. -/
def ImgEqOn (a b : Img) : Prop :=
  a.width = b.width ∧ a.height = b.height ∧
    ∀ x y, x < a.width → y < a.height → a.pix x y = b.pix x y

/-- A window, given as `(left, top, right, bottom)`, contains the pixel
`(x, y)`. -/
def window_contains (w : Int × Int × Int × Int) (x y : Int) : Prop :=
  w.1 ≤ x ∧ x < w.2.2.1 ∧ w.2.1 ≤ y ∧ y < w.2.2.2

/-! Basic facts about the grid dimensions and the emitted list. -/

lemma grid_count_pos (dim tile_size overlap : Int) : 1 ≤ grid_count dim tile_size overlap :=
  le_max_left _ _

/-- The grid is large enough: `cols * step` reaches past `dim - overlap`. -/
lemma grid_count_mul_ge (dim tile_size overlap : Int) (hstep : 0 < tile_size - overlap) :
    dim - overlap ≤ grid_count dim tile_size overlap * (tile_size - overlap) := by
  unfold grid_count
  set step := tile_size - overlap with hstepdef
  set a := dim - overlap + step - 1 with ha
  rw [Int.fdiv_eq_ediv a (le_of_lt hstep)]
  have h2 := Int.ediv_add_emod a step
  have h3 := Int.emod_lt_of_pos a hstep
  have h4 : a / step * step ≤ max 1 (a / step) * step :=
    mul_le_mul_of_nonneg_right (le_max_right _ _) (le_of_lt hstep)
  have h5 := Int.emod_nonneg a (ne_of_gt hstep)
  have h6 : step * (a / step) = a / step * step := mul_comm _ _
  linarith [h2, h3, h4, h5, h6, ha]

lemma tile_image_eq_some (img : Img) (ts ov : Int) (h : ts - ov ≠ 0) :
    tile_image img ts ov =
      some ((List.range (grid_count (img.height : Int) ts ov).toNat).flatMap fun row =>
        (List.range (grid_count (img.width : Int) ts ov).toNat).map fun col =>
          tile_cell img ts ov row col) := by
  unfold tile_image
  rw [if_neg h]

lemma tile_cell_snd (img : Img) (ts ov : Int) (row col : Nat) :
    (tile_cell img ts ov row col).2 = (row, col) := by
  simp only [tile_cell]
  split <;> rfl

lemma mem_of_cell (img : Img) (ts ov : Int) (h : ts - ov ≠ 0) {row col : Nat}
    (hr : row < (grid_count (img.height : Int) ts ov).toNat)
    (hc : col < (grid_count (img.width : Int) ts ov).toNat)
    {tiles : List (Img × Nat × Nat)} (he : tile_image img ts ov = some tiles) :
    tile_cell img ts ov row col ∈ tiles := by
  rw [tile_image_eq_some img ts ov h] at he
  injection he with he
  subst he
  simp only [List.mem_flatMap, List.mem_map, List.mem_range]
  exact ⟨row, hr, col, hc, rfl⟩

lemma cell_of_mem (img : Img) (ts ov : Int) (h : ts - ov ≠ 0)
    {tiles : List (Img × Nat × Nat)} (he : tile_image img ts ov = some tiles)
    {e : Img × Nat × Nat} (hm : e ∈ tiles) :
    ∃ row col, row < (grid_count (img.height : Int) ts ov).toNat ∧
      col < (grid_count (img.width : Int) ts ov).toNat ∧
      e = tile_cell img ts ov row col := by
  rw [tile_image_eq_some img ts ov h] at he
  injection he with he
  subst he
  simp only [List.mem_flatMap, List.mem_map, List.mem_range] at hm
  obtain ⟨row, hr, col, hc, hcell⟩ := hm
  exact ⟨row, col, hr, hc, hcell.symm⟩

/-- One-dimensional coverage: every coordinate `x < dim` falls in the
unshifted, clamped window of some grid index `c`. -/
lemma axis_cover (dimN : Nat) (ts ov : Int) (hts : 0 < ts) (hov : 0 ≤ ov) (hlt : ov < ts)
    (x : Nat) (hx : x < dimN) :
    ∃ c : Nat, c < (grid_count (dimN : Int) ts ov).toNat ∧
      (c : Int) * (ts - ov) ≤ (x : Int) ∧ (x : Int) < (c : Int) * (ts - ov) + ts := by
  set step := ts - ov with hstepdef
  have hstep : 0 < step := by omega
  set colsZ := grid_count (dimN : Int) ts ov with hcols
  have h1 : 1 ≤ colsZ := grid_count_pos _ _ _
  have hkey : (dimN : Int) - ov ≤ colsZ * step := grid_count_mul_ge _ _ _ hstep
  have hxq := Int.ediv_add_emod (x : Int) step
  have hxr1 := Int.emod_nonneg (x : Int) (ne_of_gt hstep)
  have hxr2 := Int.emod_lt_of_pos (x : Int) hstep
  have hdivnn : 0 ≤ (x : Int) / step := Int.ediv_nonneg (by positivity) (le_of_lt hstep)
  rcases le_total (colsZ - 1) ((x : Int) / step) with hmin | hmin
  · -- the last column: c = colsZ - 1
    refine ⟨(colsZ - 1).toNat, by omega, ?_, ?_⟩
    · have hcast : ((colsZ - 1).toNat : Int) = colsZ - 1 := Int.toNat_of_nonneg (by omega)
      rw [hcast]
      have hmul : (colsZ - 1) * step ≤ ((x : Int) / step) * step :=
        mul_le_mul_of_nonneg_right hmin (le_of_lt hstep)
      have hcomm : step * ((x : Int) / step) = ((x : Int) / step) * step := mul_comm _ _
      linarith [hxq, hxr1]
    · have hcast : ((colsZ - 1).toNat : Int) = colsZ - 1 := Int.toNat_of_nonneg (by omega)
      rw [hcast]
      have hexp : (colsZ - 1) * step + ts = colsZ * step + ov := by rw [hstepdef]; ring
      omega
  · -- an interior column: c = x / step
    refine ⟨((x : Int) / step).toNat, by omega, ?_, ?_⟩
    all_goals
      have hcast : ((((x : Int) / step).toNat : Int)) = (x : Int) / step :=
        Int.toNat_of_nonneg hdivnn
      rw [hcast]
      have hcomm : step * ((x : Int) / step) = ((x : Int) / step) * step := mul_comm _ _
      omega

/-- The (possibly shifted) window of grid cell `(row, col)` contains
`(x, y)` as soon as the unshifted clamped window does. -/
lemma tile_window_contains (W H ts ov : Int) (row col : Nat) (x y : Int)
    (hx0 : 0 ≤ x) (hy0 : 0 ≤ y)
    (hx1 : (col : Int) * (ts - ov) ≤ x) (hx2 : x < (col : Int) * (ts - ov) + ts) (hxW : x < W)
    (hy1 : (row : Int) * (ts - ov) ≤ y) (hy2 : y < (row : Int) * (ts - ov) + ts) (hyH : y < H) :
    window_contains (tile_window W H ts ov row col) x y := by
  unfold tile_window window_contains
  dsimp only
  split <;> split <;> refine ⟨?_, ?_, ?_, ?_⟩ <;> omega

/-- The code's `(dim - overlap + step - 1) // step` is the ceiling of
`(dim - overlap) / step`, as the spec formulates it. -/
lemma grid_count_eq_ceil (dim ts ov : Int) (hstep : 0 < ts - ov) :
    grid_count dim ts ov = max 1 ⌈((dim : ℚ) - (ov : ℚ)) / ((ts : ℚ) - (ov : ℚ))⌉ := by
  unfold grid_count
  set step := ts - ov with hstepdef
  set a := dim - ov + step - 1 with ha
  rw [Int.fdiv_eq_ediv a (le_of_lt hstep)]
  have hq : (0 : ℚ) < (ts : ℚ) - (ov : ℚ) := by exact_mod_cast hstep
  have h2 := Int.ediv_add_emod a step
  have h3 := Int.emod_lt_of_pos a hstep
  have h5 := Int.emod_nonneg a (ne_of_gt hstep)
  have hceil : ⌈((dim : ℚ) - (ov : ℚ)) / ((ts : ℚ) - (ov : ℚ))⌉ = a / step := by
    rw [Int.ceil_eq_iff]
    constructor
    · rw [lt_div_iff hq]
      have : ((a / step - 1 : Int) : ℚ) * ((ts : ℚ) - (ov : ℚ)) =
          ((a / step * step - step : Int) : ℚ) := by push_cast [hstepdef]; ring
      push_cast at this ⊢
      rw [this]
      have : (a / step * step - step : Int) < dim - ov := by
        have hcomm : step * (a / step) = a / step * step := mul_comm _ _
        omega
      exact_mod_cast this
    · rw [div_le_iff hq]
      have : ((a / step : Int) : ℚ) * ((ts : ℚ) - (ov : ℚ)) =
          ((a / step * step : Int) : ℚ) := by push_cast [hstepdef]; ring
      push_cast at this ⊢
      rw [this]
      have : dim - ov ≤ a / step * step := by
        have hcomm : step * (a / step) = a / step * step := mul_comm _ _
        omega
      exact_mod_cast this
  rw [hceil]

/-- Claim C1: for a positive-size page raster and a valid configuration
(`0 < tile_size`, `0 ≤ overlap < tile_size`), every pixel of the raster
lies inside the pre-padding cropped window of some emitted tile: the
union of the windows covers the page with no gaps. -/
theorem tile_image_covers (img : Img) (ts ov : Int)
    (hts : 0 < ts) (hov : 0 ≤ ov) (hlt : ov < ts)
    (hW : 0 < img.width) (hH : 0 < img.height)
    (x y : Nat) (hx : x < img.width) (hy : y < img.height) :
    ∃ tiles row col,
      tile_image img ts ov = some tiles ∧
      tile_cell img ts ov row col ∈ tiles ∧
      window_contains (tile_window (img.width : Int) (img.height : Int) ts ov row col)
        (x : Int) (y : Int) := by
  have hne : ts - ov ≠ 0 := by omega
  obtain ⟨col, hc, hx1, hx2⟩ := axis_cover img.width ts ov hts hov hlt x hx
  obtain ⟨row, hr, hy1, hy2⟩ := axis_cover img.height ts ov hts hov hlt y hy
  refine ⟨_, row, col, tile_image_eq_some img ts ov hne, ?_, ?_⟩
  · exact mem_of_cell img ts ov hne hr hc (tile_image_eq_some img ts ov hne)
  · exact tile_window_contains _ _ ts ov row col _ _ (by positivity) (by positivity)
      hx1 hx2 (by exact_mod_cast hx) hy1 hy2 (by exact_mod_cast hy)

/-- Witness for C1 at a concrete input: a 5 × 3 page, tile size 4,
overlap 1, pixel (4, 2). -/
theorem tile_image_covers_witness :
    (0 : Int) < 4 ∧ (0 : Int) ≤ 1 ∧ (1 : Int) < 4 ∧
      0 < (5 : Nat) ∧ 0 < (3 : Nat) ∧ 4 < 5 ∧ 2 < 3 ∧
      (∃ tiles row col,
        tile_image ⟨5, 3, fun _ _ => (0, 0, 0)⟩ 4 1 = some tiles ∧
        tile_cell ⟨5, 3, fun _ _ => (0, 0, 0)⟩ 4 1 row col ∈ tiles ∧
        window_contains (tile_window 5 3 4 1 row col) 4 2) :=
  ⟨by decide, by decide, by decide, by decide, by decide, by decide, by decide,
    tile_image_covers ⟨5, 3, fun _ _ => (0, 0, 0)⟩ 4 1 (by decide) (by decide) (by decide)
      (by decide) (by decide) 4 2 (by decide) (by decide)⟩

/-- Claim C4: for every page raster and valid configuration,
`tile_image` emits exactly `rows * cols` triples — where `cols` and
`rows` are `max 1 ⌈(dim - overlap) / step⌉` of the width and height,
exactly as `grid_count` computes them — one per grid cell with none
skipped, and the `(row, col)` tags of the emitted sequence are exactly
the row-major enumeration: row ascending outer, column ascending
inner. -/
theorem tile_image_grid (img : Img) (ts ov : Int)
    (hts : 0 < ts) (hov : 0 ≤ ov) (hlt : ov < ts) :
    ∃ tiles,
      tile_image img ts ov = some tiles ∧
      (∀ d : Int, grid_count d ts ov = max 1 ⌈((d : ℚ) - (ov : ℚ)) / ((ts : ℚ) - (ov : ℚ))⌉) ∧
      tiles.length =
        (grid_count (img.height : Int) ts ov).toNat * (grid_count (img.width : Int) ts ov).toNat ∧
      tiles.map (fun e => e.2) =
        (List.range (grid_count (img.height : Int) ts ov).toNat).flatMap fun row =>
          (List.range (grid_count (img.width : Int) ts ov).toNat).map fun col => (row, col) := by
  have hne : ts - ov ≠ 0 := by omega
  refine ⟨_, tile_image_eq_some img ts ov hne,
    fun d => grid_count_eq_ceil d ts ov (by omega), ?_, ?_⟩
  · rw [List.length_flatMap]
    simp only [Function.comp_def, List.length_map]
    rw [List.map_const', List.sum_const_nat]
    simp [List.length_range]
  · simp only [List.map_flatMap, List.map_map, Function.comp_def, tile_cell_snd]

/-- Witness for C4 at a concrete input: a 2000 × 1500 page with the
default tile size 1024 and overlap 128 (the spec's §8 scenario). -/
theorem tile_image_grid_witness :
    (0 : Int) < 1024 ∧ (0 : Int) ≤ 128 ∧ (128 : Int) < 1024 ∧
      (∃ tiles,
        tile_image ⟨2000, 1500, fun _ _ => (0, 0, 0)⟩ 1024 128 = some tiles ∧
        (∀ d : Int,
          grid_count d 1024 128 = max 1 ⌈((d : ℚ) - (128 : ℚ)) / ((1024 : ℚ) - (128 : ℚ))⌉) ∧
        tiles.length = (grid_count 1500 1024 128).toNat * (grid_count 2000 1024 128).toNat ∧
        tiles.map (fun e => e.2) =
          (List.range (grid_count 1500 1024 128).toNat).flatMap fun row =>
            (List.range (grid_count 2000 1024 128).toNat).map fun col => (row, col)) :=
  ⟨by decide, by decide, by decide,
    tile_image_grid ⟨2000, 1500, fun _ _ => (0, 0, 0)⟩ 1024 128
      (by decide) (by decide) (by decide)⟩

/-- Helper for C3/C9: identify the cell an emitted triple came from. -/
lemma mem_elim (img : Img) (ts ov : Int) (hne : ts - ov ≠ 0)
    {tiles : List (Img × Nat × Nat)} (he : tile_image img ts ov = some tiles)
    {t : Img} {row col : Nat} (hm : (t, row, col) ∈ tiles) :
    t = (tile_cell img ts ov row col).1 := by
  obtain ⟨row', col', _, _, hcell⟩ := cell_of_mem img ts ov hne he hm
  have h2 : (row, col) = (row', col') := by
    have := congrArg Prod.snd hcell
    simpa [tile_cell_snd] using this
  injection h2 with hrow hcol
  subst hrow; subst hcol
  exact congrArg Prod.fst hcell

/-- Claim C3: every emitted tile is exactly `tile_size × tile_size`,
and its pixels agree with the cropped window where that is defined,
with white (the `white` fill) everywhere else — the crop is anchored at
the top-left corner of the canvas. -/
theorem tile_image_tile_size (img : Img) (ts ov : Int)
    (hts : 0 < ts) (hov : 0 ≤ ov) (hlt : ov < ts)
    (tiles : List (Img × Nat × Nat)) (he : tile_image img ts ov = some tiles)
    (t : Img) (row col : Nat) (hm : (t, row, col) ∈ tiles) :
    t.width = ts.toNat ∧ t.height = ts.toNat ∧
      ∀ x y : Nat, x < ts.toNat → y < ts.toNat →
        t.pix x y =
          if x < (window_crop img ts ov row col).width ∧
             y < (window_crop img ts ov row col).height
          then (window_crop img ts ov row col).pix x y
          else white := by
  have hne : ts - ov ≠ 0 := by omega
  have ht := mem_elim img ts ov hne he hm
  simp only [tile_cell] at ht
  split at ht
  · next hcond =>
    obtain ⟨hcw, hch⟩ := hcond
    have ht2 : t = window_crop img ts ov row col := ht
    subst ht2
    refine ⟨by omega, by omega, fun x y hx hy => ?_⟩
    rw [if_pos ⟨by omega, by omega⟩]
  · next hcond =>
    have ht2 : t = padTile (window_crop img ts ov row col) ts.toNat := ht
    subst ht2
    refine ⟨rfl, rfl, fun x y hx hy => ?_⟩
    rfl

/-- Witness for C3: a 1 × 1 page with tile size 2, overlap 0; the only
emitted tile is a padded one. -/
theorem tile_image_tile_size_witness :
    (0 : Int) < 2 ∧ (0 : Int) ≤ 0 ∧ (0 : Int) < 2 ∧
      ((tile_cell ⟨1, 1, fun _ _ => (7, 7, 7)⟩ 2 0 0 0).1.width = (2 : Int).toNat ∧
       (tile_cell ⟨1, 1, fun _ _ => (7, 7, 7)⟩ 2 0 0 0).1.height = (2 : Int).toNat ∧
       ∀ x y : Nat, x < (2 : Int).toNat → y < (2 : Int).toNat →
         (tile_cell ⟨1, 1, fun _ _ => (7, 7, 7)⟩ 2 0 0 0).1.pix x y =
           if x < (window_crop ⟨1, 1, fun _ _ => (7, 7, 7)⟩ 2 0 0 0).width ∧
              y < (window_crop ⟨1, 1, fun _ _ => (7, 7, 7)⟩ 2 0 0 0).height
           then (window_crop ⟨1, 1, fun _ _ => (7, 7, 7)⟩ 2 0 0 0).pix x y
           else white) := by
  refine ⟨by decide, by decide, by decide, ?_⟩
  have hm : ((tile_cell ⟨1, 1, fun _ _ => (7, 7, 7)⟩ 2 0 0 0).1, 0, 0) ∈
      [tile_cell ⟨1, 1, fun _ _ => (7, 7, 7)⟩ 2 0 0 0] := by
    have : ((tile_cell ⟨1, 1, fun _ _ => (7, 7, 7)⟩ 2 0 0 0).1, 0, 0) =
        tile_cell ⟨1, 1, fun _ _ => (7, 7, 7)⟩ 2 0 0 0 := by
      have := tile_cell_snd ⟨1, 1, fun _ _ => (7, 7, 7)⟩ 2 0 0 0
      exact Prod.ext rfl this.symm
    rw [this]
    exact List.mem_singleton_self _
  exact tile_image_tile_size ⟨1, 1, fun _ _ => (7, 7, 7)⟩ 2 0 (by decide) (by decide) (by decide)
    _ rfl _ 0 0 hm

/-- One axis of the edge-correction argument: when the page dimension
is at least `tile_size` and the raw offset is either zero (first
column/row) or eligible for the shift, the clamped-and-shifted window
spans exactly `tile_size`. -/
lemma axis_window_full (dim ts pos : Int) (c0 : Prop) [Decidable c0]
    (hts : 0 < ts) (hpos : 0 ≤ pos) (hdim : ts ≤ dim) (hzero : pos = 0 ∨ c0) :
    min (pos + ts) dim -
      (if min (pos + ts) dim - pos < ts ∧ c0 then max 0 (min (pos + ts) dim - ts) else pos) =
      ts := by
  rcases le_or_lt (pos + ts) dim with h | h
  · rw [min_eq_left h, if_neg (fun hh => absurd hh.1 (by omega))]
    omega
  · rw [min_eq_right h.le]
    by_cases hc : dim - pos < ts ∧ c0
    · rw [if_pos hc, max_eq_right (by omega : (0 : Int) ≤ dim - ts)]
      omega
    · rw [if_neg hc]
      have hnc : ¬c0 := fun hcc => hc ⟨by omega, hcc⟩
      rcases hzero with h0 | hcc
      · exact absurd hdim (by omega)
      · exact absurd hcc hnc

/-- Both window dimensions equal `tile_size` whenever both page
dimensions are at least `tile_size`. -/
lemma tile_window_full (W H ts ov : Int) (hts : 0 < ts) (hov : 0 ≤ ov) (hlt : ov < ts)
    (hW : ts ≤ W) (hH : ts ≤ H) (row col : Nat) :
    (tile_window W H ts ov row col).2.2.1 - (tile_window W H ts ov row col).1 = ts ∧
    (tile_window W H ts ov row col).2.2.2 - (tile_window W H ts ov row col).2.1 = ts := by
  have hc : 0 ≤ (col : Int) * (ts - ov) := mul_nonneg (by positivity) (by omega)
  have hr : 0 ≤ (row : Int) * (ts - ov) := mul_nonneg (by positivity) (by omega)
  simp only [tile_window]
  constructor
  · refine axis_window_full W ts _ (0 < col) hts hc hW ?_
    rcases Nat.eq_zero_or_pos col with h | h
    · exact Or.inl (by rw [h]; simp)
    · exact Or.inr h
  · refine axis_window_full H ts _ (0 < row) hts hr hH ?_
    rcases Nat.eq_zero_or_pos row with h | h
    · exact Or.inl (by rw [h]; simp)
    · exact Or.inr h

/-- Claim C9: when both page dimensions are at least `tile_size` and the
configuration is valid, no emitted tile is padded — every cropped
window already measures exactly `tile_size × tile_size` and the emitted
tile is the bare crop. -/
theorem tile_image_no_padding (img : Img) (ts ov : Int)
    (hts : 0 < ts) (hov : 0 ≤ ov) (hlt : ov < ts)
    (hW : ts ≤ (img.width : Int)) (hH : ts ≤ (img.height : Int))
    (tiles : List (Img × Nat × Nat)) (he : tile_image img ts ov = some tiles)
    (t : Img) (row col : Nat) (hm : (t, row, col) ∈ tiles) :
    (window_crop img ts ov row col).width = ts.toNat ∧
    (window_crop img ts ov row col).height = ts.toNat ∧
    t = window_crop img ts ov row col := by
  have hne : ts - ov ≠ 0 := by omega
  have hfull := tile_window_full (img.width : Int) (img.height : Int) ts ov hts hov hlt
    hW hH row col
  have hwidth : (window_crop img ts ov row col).width = ts.toNat := by
    simp only [window_crop, crop]
    omega
  have hheight : (window_crop img ts ov row col).height = ts.toNat := by
    simp only [window_crop, crop]
    omega
  refine ⟨hwidth, hheight, ?_⟩
  have ht := mem_elim img ts ov hne he hm
  simp only [tile_cell] at ht
  rw [if_pos ⟨by omega, by omega⟩] at ht
  exact ht

/-- Witness for C9: a 3 × 3 page, tile size 2, overlap 1; the cell at
(row, col) = (1, 1) is an unpadded crop. -/
theorem tile_image_no_padding_witness :
    (0 : Int) < 2 ∧ (0 : Int) ≤ 1 ∧ (1 : Int) < 2 ∧ (2 : Int) ≤ 3 ∧
      ((window_crop ⟨3, 3, fun _ _ => (0, 0, 0)⟩ 2 1 1 1).width = (2 : Int).toNat ∧
       (window_crop ⟨3, 3, fun _ _ => (0, 0, 0)⟩ 2 1 1 1).height = (2 : Int).toNat ∧
       (tile_cell ⟨3, 3, fun _ _ => (0, 0, 0)⟩ 2 1 1 1).1 =
         window_crop ⟨3, 3, fun _ _ => (0, 0, 0)⟩ 2 1 1 1) := by
  refine ⟨by decide, by decide, by decide, by decide, ?_⟩
  have hm : ((tile_cell ⟨3, 3, fun _ _ => (0, 0, 0)⟩ 2 1 1 1).1, 1, 1) ∈
      ((List.range (grid_count (3 : Int) 2 1).toNat).flatMap fun row =>
        (List.range (grid_count (3 : Int) 2 1).toNat).map fun col =>
          tile_cell ⟨3, 3, fun _ _ => (0, 0, 0)⟩ 2 1 row col) := by
    have heq : ((tile_cell ⟨3, 3, fun _ _ => (0, 0, 0)⟩ 2 1 1 1).1, 1, 1) =
        tile_cell ⟨3, 3, fun _ _ => (0, 0, 0)⟩ 2 1 1 1 := by
      have := tile_cell_snd ⟨3, 3, fun _ _ => (0, 0, 0)⟩ 2 1 1 1
      exact Prod.ext rfl this.symm
    rw [heq]
    simp only [List.mem_flatMap, List.mem_map, List.mem_range]
    exact ⟨1, by decide, 1, by decide, rfl⟩
  exact tile_image_no_padding ⟨3, 3, fun _ _ => (0, 0, 0)⟩ 2 1 (by decide) (by decide)
    (by decide) (by decide) (by decide) _ rfl _ 1 1 hm

/-! Determinism: `tile_image` reads only in-bounds pixels, so two
rasters with the same observable content produce identical output. -/

lemma getpix_congr {a b : Img} (h : ImgEqOn a b) (x y : Int) : getpix a x y = getpix b x y := by
  obtain ⟨hw, hh, hp⟩ := h
  unfold getpix
  rw [hw, hh]
  split
  · next hcond => exact hp _ _ (by omega) (by omega)
  · rfl

lemma crop_congr {a b : Img} (h : ImgEqOn a b) (l t r bo : Int) :
    crop a l t r bo = crop b l t r bo := by
  unfold crop
  exact congrArg (Img.mk _ _) (funext fun x => funext fun y => getpix_congr h _ _)

lemma tile_cell_congr {a b : Img} (h : ImgEqOn a b) (ts ov : Int) (row col : Nat) :
    tile_cell a ts ov row col = tile_cell b ts ov row col := by
  simp only [tile_cell, window_crop, h.1, h.2.1, crop_congr h]

/-- Claim C8: tiling is deterministic — the emitted tile sequence is a
pure function of the observable page content. Two rasters of equal
dimensions that agree on every in-bounds pixel (in particular, the same
raster tiled twice) yield identical output, pixel for pixel, in
identical order. -/
theorem tile_image_deterministic (a b : Img) (ts ov : Int) (h : ImgEqOn a b) :
    tile_image a ts ov = tile_image b ts ov := by
  unfold tile_image
  rw [h.1, h.2.1]
  simp only [tile_cell_congr h]

/-- Two rasters with identical in-bounds content but different
out-of-bounds junk, used to witness C8. -/
def imgA : Img := ⟨2, 2, fun x y => if 2 ≤ x then (9, 9, 9) else (1, 2, 3)⟩

/-- Pointwise-constant companion of `imgA`. -/
def imgB : Img := ⟨2, 2, fun _ _ => (1, 2, 3)⟩

/-- Witness for C8 at a concrete input. -/
theorem tile_image_deterministic_witness :
    ImgEqOn imgA imgB ∧ tile_image imgA 2 1 = tile_image imgB 2 1 := by
  have h : ImgEqOn imgA imgB := by
    refine ⟨rfl, rfl, fun x y hx hy => ?_⟩
    simp only [imgA, imgB]
    rw [if_neg (by simp only [imgA] at hx; omega)]
  exact ⟨h, tile_image_deterministic imgA imgB 2 1 h⟩

/-! Configuration and input validation: what `tile_image` actually does
on inputs the spec says it must reject. -/

/-- A 30 × 30 all-black raster, used to evaluate C2. -/
def invalid_cfg_img : Img := ⟨30, 30, fun _ _ => (0, 0, 0)⟩

/-- Claim C2 evaluation (the failing input): with `overlap = 20` greater
than `tile_size = 10`, `tile_image` performs no validation and raises
no error — it silently emits one tile (the clamped 10 × 10 top-left
crop), so the configuration is not rejected and partial work is
performed. -/
theorem tile_image_invalid_overlap_emits :
    ∃ tiles, tile_image invalid_cfg_img 10 20 = some tiles ∧ tiles.length = 1 :=
  ⟨_, rfl, rfl⟩

/-- A zero-width raster, used to evaluate C5. -/
def zero_width_img : Img := ⟨0, 5, fun _ _ => (0, 0, 0)⟩

/-- Claim C5 evaluation (the failing input): on a 0 × 5 raster with the
valid configuration `tile_size = 4`, `overlap = 1`, `tile_image`
signals nothing: it emits a full `rows × 1` grid of tiles whose every
pixel is the white padding colour. -/
theorem tile_image_zero_width_emits :
    tile_image zero_width_img 4 1 =
      some [tile_cell zero_width_img 4 1 0 0, tile_cell zero_width_img 4 1 1 0] ∧
    ∀ x y : Nat,
      (tile_cell zero_width_img 4 1 0 0).1.pix x y = white ∧
      (tile_cell zero_width_img 4 1 1 0).1.pix x y = white := by
  refine ⟨rfl, fun x y => ⟨?_, ?_⟩⟩ <;> rfl

/-!
The Blank Classifier (src/app.py lines 39-180).

A numpy 2-D uint8 array (the grayscale image and the two gradient maps)
is a `GArr`: dimensions plus a value map `val r c` (r = row, c =
column, matching `array[r, c]`), with the convention that stored values
are < 256.  Rectangular sub-regions are given by half-open row/column
ranges `[r0, r1) x [c0, c1)`, matching numpy slices; numpy's clamping
of out-of-range slice bounds is reproduced with `min` and truncated
subtraction.  Population statistics (`np.mean`, `np.std`) are modelled
exactly: means in `Rat` and standard deviations as `Real.sqrt` of the
mean squared deviation, hence the `noncomputable` markers on the
real-valued quantities (the source computes them in binary64).
-/

/-- A single-channel (grayscale / gradient) array: `val row col`. -/
structure GArr where
  height : Nat
  width : Nat
  val : Nat → Nat → Nat

/-- Number of elements of the region `[r0, r1) x [c0, c1)` of an array
(`.size` of the numpy slice); truncated subtraction matches numpy's
clamping of empty slices. -/
def regionSize (r0 r1 c0 c1 : Nat) : Nat := (r1 - r0) * (c1 - c0)

/-- Sum of the sample values over a rectangular region. -/
def regionSum (g : GArr) (r0 r1 c0 c1 : Nat) : Nat :=
  ∑ r ∈ Finset.Ico r0 r1, ∑ c ∈ Finset.Ico c0 c1, g.val r c

/-- Embeds `np.mean` over a rectangular region (exact rational value of the
binary64 computation's mathematical definition). -/
def regionMean (g : GArr) (r0 r1 c0 c1 : Nat) : ℚ :=
  (regionSum g r0 r1 c0 c1 : ℚ) / (regionSize r0 r1 c0 c1 : ℚ)

/-- The mean squared deviation over a rectangular region (the square of
`np.std`). -/
def regionVar (g : GArr) (r0 r1 c0 c1 : Nat) : ℚ :=
  (∑ r ∈ Finset.Ico r0 r1, ∑ c ∈ Finset.Ico c0 c1,
      ((g.val r c : ℚ) - regionMean g r0 r1 c0 c1) ^ 2) /
    (regionSize r0 r1 c0 c1 : ℚ)

/-- Embeds `np.std` (population standard deviation) over a rectangular
region. -/
noncomputable def regionStd (g : GArr) (r0 r1 c0 c1 : Nat) : ℝ :=
  Real.sqrt ((regionVar g r0 r1 c0 c1 : ℚ) : ℝ)

/-- Embeds `border_thickness = max(int(min(height, width) * 0.1), 10)`
(src/app.py line 99, recomputed nowhere else; passed to
`detect_rectangular_border` at line 139).  `min * 0.1` is a binary64
product and `int` truncates toward zero; for every `n` far below 2^49
the truncated binary64 product `int(n * 0.1)` equals `n / 10` (the
fractional part of `n / 10` is either 0 or at least 1/10, while the
rounding error of the product is below `n * 2^-52`), so integer floor
division models the line exactly at all realistic image sizes. -/
def border_thickness (height width : Nat) : Nat := max (min height width / 10) 10

/-- Modelled from the spec's words, for comparison with the code in
claim C6 only: the spec (§4.2) states the thickness as
`max(round(0.1 * min(width, height)), 10)` with round-to-nearest;
`(n + 5) / 10` is round-to-nearest of `n / 10` (ties upward — the C6
counterexample is not a tie, so the tie rule is immaterial). -/
def border_thickness_rounded (height width : Nat) : Nat :=
  max ((min height width + 5) / 10) 10

/-- The number of elements of the center sub-rectangle
`gray_array[bt:-bt, bt:-bt]` (`center.size` at src/app.py line 160).
Slice semantics: the start `bt` clamps to the dimension, the stop `-bt`
is `dim - bt` clamped to 0 — except that `-0` denotes 0, making the
slice empty when `bt = 0`. -/
def center_size (g : GArr) (bt : Nat) : Nat :=
  regionSize (min bt g.height) (if bt = 0 then 0 else g.height - bt)
    (min bt g.width) (if bt = 0 then 0 else g.width - bt)

/-- Embeds `np.mean([np.std(top_strip), np.std(bottom_strip), np.std(left_strip),
np.std(right_strip)])` (src/app.py lines 164-169): the four border
strips are `[:bt, :]`, `[-bt:, :]`, `[:, :bt]` and `[:, -bt:]` of the
grayscale array (the code only uses this with `bt ≥ 10`, so the
`-0`-slice quirk cannot arise for the bottom/right strips). -/
noncomputable def border_std (g : GArr) (bt : Nat) : ℝ :=
  (regionStd g 0 (min bt g.height) 0 g.width +
   regionStd g (g.height - bt) g.height 0 g.width +
   regionStd g 0 g.height 0 (min bt g.width) +
   regionStd g 0 g.height (g.width - bt) g.width) / 4

/-- Embeds `np.std(center)` over the center sub-rectangle (line 171). -/
noncomputable def center_std (g : GArr) (bt : Nat) : ℝ :=
  regionStd g (min bt g.height) (if bt = 0 then 0 else g.height - bt)
    (min bt g.width) (if bt = 0 then 0 else g.width - bt)

/-- Embeds `np.mean(center)` (line 176). -/
def center_mean (g : GArr) (bt : Nat) : ℚ :=
  regionMean g (min bt g.height) (if bt = 0 then 0 else g.height - bt)
    (min bt g.width) (if bt = 0 then 0 else g.width - bt)

open Classical in
/-- Embeds `detect_rectangular_border(gray_array, border_thickness)`
(src/app.py lines 144-180): empty center short-circuits to `False`;
otherwise a frame is detected when the border strips vary
(`border_std > 15`), the center is uniform (`center_std < 8`) and the
center is near white (`center_mean > 240`). -/
def detect_rectangular_border (g : GArr) (bt : Nat) : Prop :=
  if center_size g bt = 0 then False
  else if 15 < border_std g bt ∧ center_std g bt < 8 then
    if 240 < center_mean g bt then True else False
  else False

/-- uint8 subtraction as `np.diff` performs it on a uint8 array:
`a - b` wraps modulo 256 (`np.abs` is then the identity on uint8), for
`a, b < 256`. -/
def udiff (a b : Nat) : Nat := (a + 256 - b) % 256

/-- Embeds `edges_h = np.abs(np.diff(gray_array, axis=0))` (line 73): shape
`(h - 1, w)`, row gradient with uint8 wraparound. -/
def edges_h (g : GArr) : GArr :=
  ⟨g.height - 1, g.width, fun r c => udiff (g.val (r + 1) c) (g.val r c)⟩

/-- Embeds `edges_v = np.abs(np.diff(gray_array, axis=1))` (line 74): shape
`(h, w - 1)`, column gradient with uint8 wraparound. -/
def edges_v (g : GArr) : GArr :=
  ⟨g.height, g.width - 1, fun r c => udiff (g.val r (c + 1)) (g.val r c)⟩

/-- Embeds `np.sum(edges > 30)`: the number of significant gradient samples of
an entire gradient array (lines 77, 125-126 use the same test). -/
def sig_count (e : GArr) : Nat :=
  ∑ r ∈ Finset.range e.height, ∑ c ∈ Finset.range e.width,
    if 30 < e.val r c then 1 else 0

/-- Significant gradient samples inside the border mask of a gradient
array: the mask sets rows `[:bt]`, `[-bt:]` and columns `[:bt]`,
`[-bt:]` of the array's own shape (lines 102-118; the caller always
passes `bt ≥ 10`). -/
def border_edge_count (e : GArr) (bt : Nat) : Nat :=
  ∑ r ∈ Finset.range e.height, ∑ c ∈ Finset.range e.width,
    if 30 < e.val r c ∧ (r < bt ∨ e.height - bt ≤ r ∨ c < bt ∨ e.width - bt ≤ c)
    then 1 else 0

/-- Significant gradient samples in the complementary center mask
(lines 121-126). -/
def center_edge_count (e : GArr) (bt : Nat) : Nat :=
  ∑ r ∈ Finset.range e.height, ∑ c ∈ Finset.range e.width,
    if 30 < e.val r c ∧ ¬(r < bt ∨ e.height - bt ≤ r ∨ c < bt ∨ e.width - bt ≤ c)
    then 1 else 0

open Classical in
/-- Embeds `is_border_frame(gray_array, edges_h, edges_v)` (src/app.py lines
91-142): either the edge-concentration test fires — there are edges,
more than the fraction 0.8 of them lie in the border mask, and the
center has fewer than `width * height * 0.002` — or the
rectangular-border test fires.  The fractional constants are the exact
rationals; their binary64 counterparts differ by < 1e-16, which the
rational edge counts of a realistically sized tile cannot
discriminate. -/
def is_border_frame (g eh ev : GArr) : Prop :=
  let bt := border_thickness g.height g.width
  let border_edges := border_edge_count eh bt + border_edge_count ev bt
  let center_edges := center_edge_count eh bt + center_edge_count ev bt
  let total_edges := border_edges + center_edges
  if 0 < total_edges ∧ (0.8 : ℚ) < (border_edges : ℚ) / (total_edges : ℚ) ∧
      (center_edges : ℚ) < (g.width : ℚ) * (g.height : ℚ) * (0.002 : ℚ) then True
  else if detect_rectangular_border g bt then True
  else False

/-- Embeds `np.sum(np.all(img_array > 240, axis=2))` (line 55): pixels whose
three channels all exceed 240. -/
def white_pixel_count (img : Img) : Nat :=
  ∑ y ∈ Finset.range img.height, ∑ x ∈ Finset.range img.width,
    if 240 < (img.pix x y).1 ∧ 240 < (img.pix x y).2.1 ∧ 240 < (img.pix x y).2.2
    then 1 else 0

/-- Embeds `white_percentage = np.sum(white_pixels) / (image.width *
image.height)` (line 56). -/
def white_percentage (img : Img) : ℚ :=
  (white_pixel_count img : ℚ) / ((img.width : ℚ) * (img.height : ℚ))

/-- Sum of all channel samples of the tile (for `np.std(img_array)`,
which runs over all `3 * w * h` samples). -/
def sample_sum (img : Img) : Nat :=
  ∑ y ∈ Finset.range img.height, ∑ x ∈ Finset.range img.width,
    ((img.pix x y).1 + (img.pix x y).2.1 + (img.pix x y).2.2)

/-- Mean of all channel samples. -/
def sample_mean (img : Img) : ℚ :=
  (sample_sum img : ℚ) / (3 * (img.width : ℚ) * (img.height : ℚ))

/-- Embeds `std_dev = np.std(img_array)` (line 63): population standard
deviation of all channel samples. -/
noncomputable def img_std (img : Img) : ℝ :=
  Real.sqrt (((∑ y ∈ Finset.range img.height, ∑ x ∈ Finset.range img.width,
      ((((img.pix x y).1 : ℚ) - sample_mean img) ^ 2 +
       (((img.pix x y).2.1 : ℚ) - sample_mean img) ^ 2 +
       (((img.pix x y).2.2 : ℚ) - sample_mean img) ^ 2)) /
    (3 * (img.width : ℚ) * (img.height : ℚ)) : ℚ))

/-- Embeds `gray = image.convert('L')` as a numpy array (lines 69-70).
Pillow's RGB → L conversion computes
`(19595 * R + 38470 * G + 7471 * B) >> 16` in integers. -/
def to_gray (img : Img) : GArr :=
  ⟨img.height, img.width, fun r c =>
    (19595 * (img.pix c r).1 + 38470 * (img.pix c r).2.1 + 7471 * (img.pix c r).2.2) / 65536⟩

/-- Embeds `edge_density = significant_edges / (image.width * image.height)`
(lines 77-78). -/
def edge_density (img : Img) : ℚ :=
  ((sig_count (edges_h (to_gray img)) + sig_count (edges_v (to_gray img)) : ℕ) : ℚ) /
    ((img.width : ℚ) * (img.height : ℚ))

open Classical in
/-- Embeds `is_blank_tile(image, threshold)` (src/app.py lines 39-89): the
four ordered tests, each returning `True` immediately when it fires. -/
def is_blank_tile (img : Img) (threshold : ℚ) : Prop :=
  if threshold < white_percentage img then True
  else if img_std img < 5 then True
  else if edge_density img < (0.001 : ℚ) then True
  else if is_border_frame (to_gray img) (edges_h (to_gray img)) (edges_v (to_gray img)) then True
  else False

/-- Claim C6 counterexample: at a 1017 × 1017 tile the code's border
thickness (`int`, truncation) is 101, while the claimed formula
(`round`, to nearest — 101.7 rounds to 102, no tie involved) gives
102. -/
theorem border_thickness_counterexample :
    border_thickness 1017 1017 = 101 ∧ border_thickness_rounded 1017 1017 = 102 ∧
      border_thickness 1017 1017 ≠ border_thickness_rounded 1017 1017 := by decide

/-- Claim C6 amended: the border thickness used to partition the tile
equals `max(trunc(0.1 * min(width, height)), 10)` — the product is
truncated toward zero (Python `int`), not rounded to nearest. -/
theorem border_thickness_eq_trunc (height width : Nat) :
    border_thickness height width = max ⌊(0.1 : ℚ) * (min height width : ℚ)⌋₊ 10 := by
  unfold border_thickness
  congr 1
  have h : (0.1 : ℚ) * (min height width : ℚ) = ((min height width : ℕ) : ℚ) / ((10 : ℕ) : ℚ) := by
    push_cast
    ring
  rw [h, Nat.floor_div_nat, Nat.floor_natCast]

/-- Claim C7: the rectangular-border sub-check fires exactly when the
center sub-rectangle is non-empty, the mean of the four per-strip
standard deviations exceeds 15, the center's standard deviation is
below 8 and the center's mean exceeds 240; an empty center reports not
blank by this path. -/
theorem detect_rectangular_border_iff (g : GArr) (bt : Nat) :
    detect_rectangular_border g bt ↔
      center_size g bt ≠ 0 ∧ 15 < border_std g bt ∧ center_std g bt < 8 ∧
        240 < center_mean g bt := by
  unfold detect_rectangular_border
  by_cases h1 : center_size g bt = 0
  · simp [h1]
  · rw [if_neg h1]
    by_cases h2 : 15 < border_std g bt ∧ center_std g bt < 8
    · rw [if_pos h2]
      by_cases h3 : 240 < center_mean g bt
      · rw [if_pos h3]
        exact iff_of_true trivial ⟨h1, h2.1, h2.2, h3⟩
      · rw [if_neg h3]
        exact iff_of_false not_false (fun hr => h3 hr.2.2.2)
    · rw [if_neg h2]
      exact iff_of_false not_false (fun hr => h2 ⟨hr.2.1, hr.2.2.1⟩)

/-- Claim C10: the blank classifier is antitone in its threshold — only
the near-white-fraction test reads the threshold, and it fires more
easily at lower thresholds. -/
theorem is_blank_tile_antitone (img : Img) (t1 t2 : ℚ) (h12 : t1 ≤ t2)
    (hb : is_blank_tile img t2) : is_blank_tile img t1 := by
  unfold is_blank_tile at hb ⊢
  by_cases h1 : t1 < white_percentage img
  · rw [if_pos h1]
    trivial
  · rw [if_neg h1]
    have h2 : ¬t2 < white_percentage img := fun hlt => h1 (lt_of_le_of_lt h12 hlt)
    rw [if_neg h2] at hb
    exact hb

/-- A fully white 1 × 1 tile, used to witness C10. -/
def white_img : Img := ⟨1, 1, fun _ _ => (255, 255, 255)⟩

/-- Witness for C10: the white tile is blank at threshold 1/2, hence
also at the lower threshold 0. -/
theorem is_blank_tile_antitone_witness :
    (0 : ℚ) ≤ 1 / 2 ∧ is_blank_tile white_img (1 / 2) ∧ is_blank_tile white_img 0 := by
  have hwp : white_percentage white_img = 1 := by
    have h1 : white_pixel_count white_img = 1 := by decide
    unfold white_percentage
    rw [h1]
    norm_num [white_img]
  have hb : is_blank_tile white_img (1 / 2) := by
    unfold is_blank_tile
    rw [if_pos (by rw [hwp]; norm_num)]
    trivial
  exact ⟨by norm_num, hb, is_blank_tile_antitone white_img 0 (1 / 2) (by norm_num) hb⟩
